import Mathlib

/-!
# Verification of the provider gateway and response-extraction pipeline

Shallow embedding of `src/llm_provider.py` and the extraction/handler logic of
`src/web.py` from the `dobby-textile-assistant` repository.

Conventions:
* Python strings are modelled as Lean `String` / `List Char`.
* Fallible Python code (raised exceptions) is modelled with `Except String`.
* The vendor SDK call is an opaque function `(model, messages) → Except error text`.
* `json.loads` is modelled by a recursive-descent JSON parser over integers
  (floating-point numbers are outside the shallow embedding); `json.dumps` by a
  serializer emitting the standard `", "` / `": "` separators.  Non-ASCII
  characters are left literal in strings (the `ensure_ascii` transport encoding
  does not affect any property proved here).
-/

/-- Whitespace for Python `str.strip()` and the regex class `\s` (the ASCII
part: space, tab, newline, carriage return, vertical tab, form feed). -/
def pyWs (c : Char) : Bool :=
  c.toNat = 32 || c.toNat = 9 || c.toNat = 10 || c.toNat = 13 || c.toNat = 11 || c.toNat = 12

/-- Whitespace skipped by the JSON scanner (`json.loads`): space, tab,
newline, carriage return. -/
def jsonWs (c : Char) : Bool :=
  c.toNat = 32 || c.toNat = 9 || c.toNat = 10 || c.toNat = 13

/-- Python `str.strip()` on a character list: drop whitespace from both ends. -/
def trimL (cs : List Char) : List Char :=
  (((cs.dropWhile pyWs).reverse).dropWhile pyWs).reverse

/-- Python `str.lower()` (ASCII case folding, as in the identifiers used here). -/
def strLower (s : String) : String := String.mk (s.data.map Char.toLower)

/-- Python `str.strip()`. -/
def pyTrim (s : String) : String := String.mk (trimL s.data)

/-- Substring occurrence on character lists. -/
def isSubL (needle : List Char) : List Char → Bool
  | [] => needle.isEmpty
  | c :: t => needle.isPrefixOf (c :: t) || isSubL needle t

/-- Python `needle in haystack` on strings. -/
def strContains (s sub : String) : Bool := isSubL sub.data s.data

/-! ## The JSON data model (`json` module as used by the source) -/

/-- Structured JSON documents (numbers restricted to integers; the schema and
all payloads handled by the claims use integer numerics). -/
inductive Json where
  | null : Json
  | bool (b : Bool) : Json
  | num (n : Int) : Json
  | str (s : String) : Json
  | arr (xs : List Json) : Json
  | obj (fields : List (String × Json)) : Json
deriving Repr

/-- Lowercase hex digit, as emitted by `json.dumps` in `\u00xx` escapes. -/
def hexDigitChar (n : Nat) : Char :=
  if n < 10 then Char.ofNat (48 + n) else Char.ofNat (87 + n)

/-- Four-digit hex rendering of a code point below `0x10000`. -/
def hex4 (n : Nat) : List Char :=
  [hexDigitChar (n / 4096 % 16), hexDigitChar (n / 256 % 16),
   hexDigitChar (n / 16 % 16), hexDigitChar (n % 16)]

/-- `json.dumps` escaping of one string character. -/
def escChar (c : Char) : List Char :=
  if c = '"' then ['\\', '"']
  else if c = '\\' then ['\\', '\\']
  else if c = '\x08' then ['\\', 'b']
  else if c = '\x0c' then ['\\', 'f']
  else if c = '\n' then ['\\', 'n']
  else if c = '\r' then ['\\', 'r']
  else if c = '\t' then ['\\', 't']
  else if c.toNat < 32 then '\\' :: 'u' :: hex4 c.toNat
  else [c]

/-- Escape every character of a string body. -/
def escList (s : List Char) : List Char :=
  s.foldr (fun c acc => escChar c ++ acc) []

/-- Serialized JSON string literal: quote, escaped body, quote. -/
def serStrL (s : List Char) : List Char := '"' :: (escList s ++ ['"'])

/-- Decimal digits of a natural number, most significant first. -/
def natDigits (n : Nat) : List Char :=
  if n = 0 then ['0'] else (Nat.digits 10 n).reverse.map (fun d => Char.ofNat (48 + d))

/-- `json.dumps` rendering of an integer. -/
def serInt (i : Int) : List Char :=
  if i < 0 then '-' :: natDigits i.natAbs else natDigits i.natAbs

mutual

/-- `json.dumps` with the default `", "` / `": "` separators. -/
def serVal : Json → List Char
  | .null => "null".data
  | .bool true => "true".data
  | .bool false => "false".data
  | .num i => serInt i
  | .str s => serStrL s.data
  | .arr xs => '[' :: (serItems xs ++ [']'])
  | .obj fs => '{' :: (serFields fs ++ ['}'])

/-- Comma-separated rendering of array elements. -/
def serItems : List Json → List Char
  | [] => []
  | [x] => serVal x
  | x :: y :: t => serVal x ++ ',' :: ' ' :: serItems (y :: t)

/-- Comma-separated rendering of object members (`"key": value`). -/
def serFields : List (String × Json) → List Char
  | [] => []
  | [(k, v)] => serStrL k.data ++ ':' :: ' ' :: serVal v
  | (k, v) :: m :: t => (serStrL k.data ++ ':' :: ' ' :: serVal v) ++ ',' :: ' ' :: serFields (m :: t)

end

/-- The serialized document as a Lean string. -/
def serJson (d : Json) : String := String.mk (serVal d)

/-! ## The JSON parser (model of `json.loads`) -/

/-- Value of a hex digit character, if any. -/
def hexVal (c : Char) : Option Nat :=
  if 48 ≤ c.toNat ∧ c.toNat ≤ 57 then some (c.toNat - 48)
  else if 97 ≤ c.toNat ∧ c.toNat ≤ 102 then some (c.toNat - 87)
  else if 65 ≤ c.toNat ∧ c.toNat ≤ 70 then some (c.toNat - 55)
  else none

/-- ASCII decimal digit test. -/
def digitB (c : Char) : Bool := 48 ≤ c.toNat && c.toNat ≤ 57

/-- Numeric value of a digit run, most significant first. -/
def digitsVal (ds : List Char) : Nat :=
  ds.foldl (fun a c => a * 10 + (c.toNat - 48)) 0

/-- Parse a nonempty run of decimal digits. -/
def pNat (cs : List Char) : Option (Nat × List Char) :=
  match cs.takeWhile digitB with
  | [] => none
  | ds => some (digitsVal ds, cs.dropWhile digitB)

/-- Parse an optionally signed integer literal. -/
def pInt (cs : List Char) : Option (Int × List Char) :=
  if cs.head? = some '-' then (pNat cs.tail).map (fun q => (-(q.1 : Int), q.2))
  else (pNat cs).map (fun q => ((q.1 : Int), q.2))

/-- The single-character escape codes of a JSON string. -/
def escCode (e : Char) : Option Char :=
  if e = '"' then some '"'
  else if e = '\\' then some '\\'
  else if e = '/' then some '/'
  else if e = 'b' then some '\x08'
  else if e = 'f' then some '\x0c'
  else if e = 'n' then some '\n'
  else if e = 'r' then some '\r'
  else if e = 't' then some '\t'
  else none

/-- Parse the body of a JSON string literal after the opening quote (strict
mode: raw control characters are rejected, as `json.loads` does by default). -/
def pStrBody : List Char → Option (List Char × List Char)
  | [] => none
  | c :: r =>
    if c = '"' then some ([], r)
    else if c = '\\' then
      match r with
      | [] => none
      | e :: r1 =>
        if e = 'u' then
          match r1 with
          | h1 :: h2 :: h3 :: h4 :: r2 =>
            match hexVal h1, hexVal h2, hexVal h3, hexVal h4 with
            | some a, some b, some cc, some d =>
              (pStrBody r2).map
                (fun q => (Char.ofNat (a * 4096 + b * 256 + cc * 16 + d) :: q.1, q.2))
            | _, _, _, _ => none
          | _ => none
        else
          match escCode e with
          | some ch => (pStrBody r1).map (fun q => (ch :: q.1, q.2))
          | none => none
    else if c.toNat < 32 then none
    else (pStrBody r).map (fun q => (c :: q.1, q.2))

/-- Skip JSON whitespace. -/
def skipWs (cs : List Char) : List Char := cs.dropWhile jsonWs

mutual

/-- Parse one JSON value (fuelled recursion; the fuel only bounds nesting
depth and is always supplied large enough to be inert). -/
def pVal : Nat → List Char → Option (Json × List Char)
  | 0, _ => none
  | Nat.succ fuel, cs0 =>
    match skipWs cs0 with
    | [] => none
    | c :: cs =>
      if c = 'n' then
        match cs with
        | 'u' :: 'l' :: 'l' :: r => some (.null, r)
        | _ => none
      else if c = 't' then
        match cs with
        | 'r' :: 'u' :: 'e' :: r => some (.bool true, r)
        | _ => none
      else if c = 'f' then
        match cs with
        | 'a' :: 'l' :: 's' :: 'e' :: r => some (.bool false, r)
        | _ => none
      else if c = '"' then
        (pStrBody cs).map (fun q => (.str (String.mk q.1), q.2))
      else if c = '[' then
        match skipWs cs with
        | ']' :: r => some (.arr [], r)
        | cs2 => (pItems fuel cs2).map (fun q => (.arr q.1, q.2))
      else if c = '{' then
        match skipWs cs with
        | '}' :: r => some (.obj [], r)
        | cs2 => (pFields fuel cs2).map (fun q => (.obj q.1, q.2))
      else if c = '-' || digitB c then
        (pInt (c :: cs)).map (fun q => (.num q.1, q.2))
      else none

/-- Parse the elements of a nonempty array body up to the closing bracket. -/
def pItems : Nat → List Char → Option (List Json × List Char)
  | 0, _ => none
  | Nat.succ fuel, cs =>
    match pVal fuel cs with
    | none => none
    | some (v, r) =>
      match skipWs r with
      | ',' :: r2 => (pItems fuel r2).map (fun q => (v :: q.1, q.2))
      | ']' :: r2 => some ([v], r2)
      | _ => none

/-- Parse the members of a nonempty object body up to the closing brace. -/
def pFields : Nat → List Char → Option (List (String × Json) × List Char)
  | 0, _ => none
  | Nat.succ fuel, cs =>
    match skipWs cs with
    | '"' :: r =>
      match pStrBody r with
      | none => none
      | some (k, r1) =>
        match skipWs r1 with
        | ':' :: r2 =>
          match pVal fuel r2 with
          | none => none
          | some (v, r3) =>
            match skipWs r3 with
            | ',' :: r4 => (pFields fuel r4).map (fun q => ((String.mk k, v) :: q.1, q.2))
            | '}' :: r4 => some ([(String.mk k, v)], r4)
            | _ => none
        | _ => none
    | _ => none

end

/-- `json.loads` on a character list: parse one document and require only
whitespace after it. -/
def parseJsonL (cs : List Char) : Option Json :=
  match pVal (cs.length + 1) cs with
  | some (v, rest) => if skipWs rest = [] then some v else none
  | none => none

/-- `json.loads` on a string. -/
def parseJson (s : String) : Option Json := parseJsonL s.data

/-! Auxiliary measures and predicates used to reason about the parser. -/

mutual

/-- A recursion budget sufficient for `pVal` on the serialization of a value. -/
def needV : Json → Nat
  | .null => 1
  | .bool _ => 1
  | .num _ => 1
  | .str _ => 1
  | .arr xs => 1 + needItems xs
  | .obj fs => 1 + needFields fs

/-- Budget for `pItems` on serialized array elements. -/
def needItems : List Json → Nat
  | [] => 0
  | x :: t => 1 + needV x + needItems t

/-- Budget for `pFields` on serialized object members. -/
def needFields : List (String × Json) → Nat
  | [] => 0
  | (_, v) :: t => 1 + needV v + needFields t

end

/-- The next character, if any, is not a decimal digit (so a parsed integer
literal stops exactly at the serialized boundary). -/
def noDigitHead (cs : List Char) : Prop := ∀ c, cs.head? = some c → digitB c = false

/-- Residue condition for parsing a serialized value followed by `rest`: only
integer literals constrain what may follow. -/
def numOk (d : Json) (rest : List Char) : Prop :=
  ∀ n : Int, d = .num n → noDigitHead rest

/-- No brace characters occur in the list. -/
def braceFree (l : List Char) : Prop := ∀ c ∈ l, c ≠ '{' ∧ c ≠ '}'

instance (l : List Char) : Decidable (braceFree l) :=
  inferInstanceAs (Decidable (∀ c ∈ l, c ≠ '{' ∧ c ≠ '}'))

/-! ## The extraction pipeline of the `/chat` handler (`src/web.py`) -/

/-- `re.sub(r'^<pat>\s*', '', s)` for a literal anchored pattern: if the text
starts with the pattern, drop it together with the following whitespace run. -/
def stripPre (pat cs : List Char) : List Char :=
  if pat.isPrefixOf cs then (cs.drop pat.length).dropWhile pyWs else cs

/-- The three backticks of a fence marker. -/
def ticks : List Char := "```".data

/-- The opening fence with language tag. -/
def ticksJson : List Char := "```json".data

/-- `re.sub(r'\s*```$', '', s)`: if the text ends with three backticks, drop
them together with the whitespace run before them.  (In the pipeline this sub
runs on already right-trimmed text, so `$` is the true end of string.) -/
def stripSufTicks (cs : List Char) : List Char :=
  if ticks.reverse.isPrefixOf cs.reverse then
    (((cs.reverse.drop 3).dropWhile pyWs)).reverse
  else cs

/-- Phase 1 of the extractor, lines 40–46 of `src/web.py`:
`strip`, remove `^```json\s*`, remove `^```\s*`, remove `\s*```$`, `strip`. -/
def fenceStripL (cs : List Char) : List Char :=
  trimL (stripSufTicks (stripPre ticks (stripPre ticksJson (trimL cs))))

/-- Fence stripping on strings. -/
def fenceStrip (s : String) : String := String.mk (fenceStripL s.data)

/-- `re.search(r'\{[\s\S]*\}', s)`: the substring from the first `'\x7b'` to the
last `'\x7d'`, when the first `'\x7b'` precedes some `'\x7d'` (greedy match). -/
def braceRegionL (cs : List Char) : Option (List Char) :=
  let after := cs.dropWhile (fun c => !(c = '{'))
  let rev := after.reverse.dropWhile (fun c => !(c = '}'))
  match rev.reverse with
  | [] => none
  | r => some r

/-- Phase 2 plus parse, lines 48–53 of `src/web.py`: narrow to the greedy brace
region when one exists, then `json.loads`. -/
def extractStructuredL (cs : List Char) : Option Json :=
  let clean := fenceStripL cs
  let target := match braceRegionL clean with
    | some r => r
    | none => clean
  parseJsonL target

/-- The whole extraction pipeline applied to a raw provider reply. -/
def extractStructured (reply : String) : Option Json := extractStructuredL reply.data

/-- Lines 36–59 of `src/web.py`: build the success payload from a reply.  The
`try` around parsing catches `json.JSONDecodeError` and degrades to a `null`
structured field; the raw reply is returned in both cases. -/
def buildChatOutput (reply : String) : Except String (String × Option Json) :=
  .ok (reply, extractStructured reply)

/-! ## Messages, providers and the factory (`src/llm_provider.py`) -/

/-- One chat message (`{'role': ..., 'content': ...}`). -/
structure Msg where
  role : String
  content : String
deriving Repr, DecidableEq

/-- The process environment, read through `os.getenv`. -/
def Env : Type := String → Option String

/-- The opaque vendor SDK call: model identifier and messages in, response
text or a raised-error message out. -/
def Call : Type := String → List Msg → Except String String

/-- `GroqProvider` state after `__init__`. -/
structure GroqProvider where
  api_key : Option String
  model : String

/-- `GroqProvider.__init__` reading the environment. -/
def GroqProvider.ofEnv (env : Env) : GroqProvider :=
  { api_key := env "GROQ_API_KEY"
    model := (env "GROQ_MODEL").getD "llama-3.3-70b-versatile" }

def GroqProvider.is_configured (p : GroqProvider) : Bool := p.api_key.isSome

/-- `GroqProvider.get_response`. -/
def GroqProvider.get_response (p : GroqProvider) (call : Call) (messages : List Msg) :
    Except String String :=
  if p.is_configured then call p.model messages
  else .error "Groq API key not configured. Set GROQ_API_KEY environment variable."

def GroqProvider.get_model_name (p : GroqProvider) : String := p.model

/-- `OpenAIProvider` state after `__init__`. -/
structure OpenAIProvider where
  api_key : Option String
  model : String

def OpenAIProvider.ofEnv (env : Env) : OpenAIProvider :=
  { api_key := env "OPENAI_API_KEY", model := "gpt-4o-mini" }

def OpenAIProvider.is_configured (p : OpenAIProvider) : Bool := p.api_key.isSome

def OpenAIProvider.get_response (p : OpenAIProvider) (call : Call) (messages : List Msg) :
    Except String String :=
  if p.is_configured then call p.model messages
  else .error "OpenAI API key not configured. Set OPENAI_API_KEY environment variable."

/-- `AnthropicProvider` state after `__init__`. -/
structure AnthropicProvider where
  api_key : Option String
  model : String

def AnthropicProvider.ofEnv (env : Env) : AnthropicProvider :=
  { api_key := env "ANTHROPIC_API_KEY", model := "claude-3-5-sonnet-20241022" }

def AnthropicProvider.is_configured (p : AnthropicProvider) : Bool := p.api_key.isSome

def AnthropicProvider.get_response (p : AnthropicProvider) (call : Call) (messages : List Msg) :
    Except String String :=
  if p.is_configured then call p.model messages
  else .error "Anthropic API key not configured. Set ANTHROPIC_API_KEY environment variable."

/-- `OpenRouterProvider` state after `__init__`: an API key and the ordered
candidate model list.  `__init__` sets `self.models`; it never sets a `model`
attribute. -/
structure OpenRouterProvider where
  api_key : Option String
  models : List String

/-- The default comma-separated `OPENROUTER_MODEL` value. -/
def openRouterDefaultModels : String :=
  "deepseek/deepseek-r1:free,deepseek/deepseek-r1-distill-llama-70b:free,google/gemini-2.0-flash-exp:free"

/-- `OpenRouterProvider.__init__`: split the configured value on commas,
strip each piece, keep the nonempty ones. -/
def OpenRouterProvider.ofEnv (env : Env) (model : Option String) : OpenRouterProvider :=
  let envModel := (env "OPENROUTER_MODEL").getD openRouterDefaultModels
  { api_key := env "OPENROUTER_API_KEY"
    models := (((model.getD envModel).splitOn ",").map pyTrim).filter (fun m => m ≠ "") }

def OpenRouterProvider.is_configured (p : OpenRouterProvider) : Bool := p.api_key.isSome

/-- The fallback loop of `OpenRouterProvider.get_response`: try each candidate
in order, accumulating `f"{model}: {err}"` entries; on success return the text
together with the attempt log at that point; on exhaustion raise the aggregate
error built from the accumulated log. -/
def orGo (call : String → Except String String) :
    List String → List String → Except String (String × List String)
  | [], errs =>
    .error ("All OpenRouter models failed. Errors: " ++ String.intercalate "; " errs)
  | m :: rest, errs =>
    match call m with
    | .ok t => .ok (t, errs)
    | .error e => orGo call rest (errs ++ [m ++ ": " ++ e])

/-- `OpenRouterProvider.get_response`: configuration check, then the fallback
loop (the caller receives only the text of the first success). -/
def OpenRouterProvider.get_response (p : OpenRouterProvider) (call : Call)
    (messages : List Msg) : Except String String :=
  if p.is_configured then (orGo (fun m => call m messages) p.models []).map Prod.fst
  else .error "OpenRouter API key not configured. Set OPENROUTER_API_KEY environment variable."

/-- `OpenRouterProvider.get_model_name` executes `return self.model`, but
`__init__` stores the candidate list in `self.models` and never assigns
`self.model`, so the attribute lookup raises `AttributeError`. -/
def OpenRouterProvider.get_model_name (_p : OpenRouterProvider) : Except String String :=
  .error "AttributeError: 'OpenRouterProvider' object has no attribute 'model'"

/-- `MockProvider` state after `__init__`. -/
structure MockProvider where
  model : String

def MockProvider.init : MockProvider := { model := "mock-model" }

/-- The exact `json.dumps(mock_response)` output of the constant dictionary in
`MockProvider.get_response` (insertion order, default separators). -/
def mockResponseText : String :=
  "\x7b\"intent\": \"check\", \"template\": \"classic_check\", \"confidence\": 0.99, " ++
  "\"clarification_required\": false, \"question\": null, \"parameters\": \x7b" ++
  "\"unit\": \"Ends\", \"colors\": 2, \"ground\": 0, " ++
  "\"generate_range\": \x7b\"from_value\": 96, \"to_value\": 192\x7d, " ++
  "\"generate_mode\": \"Check\", \"epi_ppi\": true, " ++
  "\"checks\": \x7b\"regular\": true, \"balance_checks\": true, \"graded\": false, " ++
  "\"counter\": false, \"even_warp\": true, \"even_weft\": true, \"weave\": false\x7d, " ++
  "\"fil_a_fil\": \x7b\"enabled\": false, \"mode\": \"Auto\"\x7d, " ++
  "\"design_style\": \"Solid\", \"mode\": \"Normal\", " ++
  "\"solid_mode\": \x7b\"stripe_width_min\": 2, \"stripe_width_max\": 8, " ++
  "\"multi_factor_min\": 1, \"multi_factor_max\": 2\x7d, " ++
  "\"gradient_mode\": null, " ++
  "\"color_mapping\": \x7b\"color1\": \"Black\", \"color2\": \"White\", " ++
  "\"color3\": null, \"color4\": null\x7d, " ++
  "\"display_swatch\": \x7b\"x\": 4, \"y\": 4\x7d\x7d, " ++
  "\"visual_metadata\": \x7b\"fabric_type\": \"Cotton\", \"gloss\": 0.1, " ++
  "\"texture_noise\": 0.2, \"cross_section\": \"Circular\"\x7d\x7d"

/-- `MockProvider.get_response`: the most recent user message is computed
(`next(... reversed(messages) ...)`) but the returned payload is the constant
dictionary — the computed value is never used. -/
def MockProvider.get_response (_p : MockProvider) (messages : List Msg) : String :=
  let _lastUserMessage :=
    ((messages.reverse.find? (fun m => m.role == "user")).map Msg.content).getD
      "No question asked."
  mockResponseText

def MockProvider.is_configured (_p : MockProvider) : Bool := true

/-- The runtime provider instance produced by the factory. -/
inductive ProviderI where
  | groq (p : GroqProvider)
  | openai (p : OpenAIProvider)
  | anthropic (p : AnthropicProvider)
  | openrouter (p : OpenRouterProvider)
  | mock (p : MockProvider)

def ProviderI.is_configured : ProviderI → Bool
  | .groq p => p.is_configured
  | .openai p => p.is_configured
  | .anthropic p => p.is_configured
  | .openrouter p => p.is_configured
  | .mock p => p.is_configured

def ProviderI.get_response (call : Call) (messages : List Msg) :
    ProviderI → Except String String
  | .groq p => p.get_response call messages
  | .openai p => p.get_response call messages
  | .anthropic p => p.get_response call messages
  | .openrouter p => p.get_response call messages
  | .mock p => .ok (p.get_response messages)

/-- Look up a key in the `_providers` dict. -/
def registryLookup {α : Type} (reg : List (String × α)) (k : String) : Option α :=
  (reg.find? (fun e => e.1 == k)).map Prod.snd

/-- `LLMProviderFactory.register_provider`: `cls._providers[name.lower()] = c`
(dict assignment: overwrite in place, else append). -/
def register_provider {α : Type} (reg : List (String × α)) (name : String) (c : α) :
    List (String × α) :=
  if (reg.find? (fun e => e.1 == strLower name)).isSome then
    reg.map (fun e => if e.1 == strLower name then (e.1, c) else e)
  else reg ++ [(strLower name, c)]

/-- The name normalization of `get_provider`: `provider_name.lower().strip()`. -/
def normalizeName (s : String) : String := pyTrim (strLower s)

/-- The resolution step of `get_provider`: normalized-key dictionary lookup. -/
def resolveProvider {α : Type} (reg : List (String × α)) (s : String) : Option α :=
  registryLookup reg (normalizeName s)

/-- The startup contents of `LLMProviderFactory._providers`. -/
def defaultRegistry : List (String × (Env → ProviderI)) :=
  [("groq", fun env => .groq (GroqProvider.ofEnv env)),
   ("openai", fun env => .openai (OpenAIProvider.ofEnv env)),
   ("anthropic", fun env => .anthropic (AnthropicProvider.ofEnv env)),
   ("openrouter", fun env => .openrouter (OpenRouterProvider.ofEnv env none)),
   ("mock", fun _ => .mock MockProvider.init)]

/-- `LLMProviderFactory.get_provider`: normalize, resolve, construct, check
configuration; the not-configured error names the provider, not the missing
credential variable. -/
def get_provider (reg : List (String × (Env → ProviderI))) (env : Env)
    (provider_name : String) : Except String ProviderI :=
  let n := normalizeName provider_name
  match registryLookup reg n with
  | none =>
    .error ("Unknown provider '" ++ n ++ "'. Available: " ++
      String.intercalate ", " (reg.map Prod.fst))
  | some ctor =>
    let p := ctor env
    if p.is_configured then .ok p
    else .error ("Provider '" ++ n ++ "' is not configured. Missing API key or configuration.")

/-- The `/chat` handler core, lines 31–62 of `src/web.py`: resolve the
provider, obtain the reply, and build the success payload; any escalated
error becomes the error output branch. -/
def chat (reg : List (String × (Env → ProviderI))) (env : Env) (call : Call)
    (provider_name : String) (messages : List Msg) :
    Except String (String × Option Json) :=
  match get_provider reg env provider_name with
  | .error e => .error e
  | .ok p =>
    match p.get_response call messages with
    | .error e => .error e
    | .ok reply => buildChatOutput reply

/-! ## Basic facts about characters and scanning -/

theorem strMk_data (s : String) : String.mk s.data = s := rfl

theorem dropWhile_all {p : Char → Bool} {l : List Char} (h : ∀ c ∈ l, p c = true) :
    l.dropWhile p = [] :=
  List.dropWhile_eq_nil_iff.mpr h

theorem dropWhile_cons_neg {p : Char → Bool} {c : Char} {t : List Char} (h : p c = false) :
    (c :: t).dropWhile p = c :: t := by
  simp [List.dropWhile, h]

theorem takeWhile_all {p : Char → Bool} {l : List Char} (h : ∀ c ∈ l, p c = true) :
    l.takeWhile p = l := by
  induction l with
  | nil => rfl
  | cons c t ih =>
    simp only [List.takeWhile]
    rw [h c (by simp)]
    simp [ih (fun x hx => h x (by simp [hx]))]

theorem takeWhile_cons_neg {p : Char → Bool} {c : Char} {t : List Char} (h : p c = false) :
    (c :: t).takeWhile p = [] := by
  simp [List.takeWhile, h]

theorem dropWhile_append_all {p : Char → Bool} {l r : List Char}
    (h : ∀ c ∈ l, p c = true) : (l ++ r).dropWhile p = r.dropWhile p := by
  rw [List.dropWhile_append, dropWhile_all h]
  simp

theorem dropWhile_append_head {p : Char → Bool} {l : List Char} (c : Char) (t : List Char)
    (h : p c = false) : (l ++ c :: t).dropWhile p = l.dropWhile p ++ c :: t := by
  rw [List.dropWhile_append]
  by_cases he : (l.dropWhile p).isEmpty
  · simp [he, dropWhile_cons_neg h, List.isEmpty_iff.mp he]
  · simp [he]

theorem digit_ofNat_toNat : ∀ d : Nat, d < 10 → (Char.ofNat (48 + d)).toNat = 48 + d := by
  decide

theorem digit_ofNat_digitB : ∀ d : Nat, d < 10 → digitB (Char.ofNat (48 + d)) = true := by
  decide

theorem hexVal_hexDigitChar : ∀ d : Nat, d < 16 → hexVal (hexDigitChar d) = some d := by
  decide

theorem digitB_char_facts {c : Char} (h : digitB c = true) :
    jsonWs c = false ∧ pyWs c = false ∧ c ≠ 'n' ∧ c ≠ 't' ∧ c ≠ 'f' ∧ c ≠ '"' ∧
    c ≠ '[' ∧ c ≠ '{' ∧ c ≠ ']' ∧ c ≠ '}' ∧ c ≠ '-' := by
  have hb : 48 ≤ c.toNat ∧ c.toNat ≤ 57 := by
    simpa [digitB, Bool.and_eq_true, decide_eq_true_eq] using h
  have htn : ∀ x : Char, c = x → c.toNat = x.toNat := fun x e => by rw [e]
  refine ⟨?_, ?_, ?_, ?_, ?_, ?_, ?_, ?_, ?_, ?_, ?_⟩
  · simp only [jsonWs, Bool.or_eq_false_iff, decide_eq_false_iff_not]
    omega
  · simp only [pyWs, Bool.or_eq_false_iff, decide_eq_false_iff_not]
    omega
  all_goals intro e; have := htn _ e; revert this; simp; omega

theorem noDigitHead_cons {c : Char} {r : List Char} (h : digitB c = false) :
    noDigitHead (c :: r) := by
  intro x hx
  simp only [List.head?_cons, Option.some.injEq] at hx
  rw [← hx]; exact h

theorem noDigitHead_nil : noDigitHead [] := by
  intro x hx; simp at hx

/-! ## Round trip for integer literals -/

theorem digitsVal_fold (L : List Nat) (a : Nat) (h : ∀ d ∈ L, d < 10) :
    (List.foldl (fun acc c => acc * 10 + (c.toNat - 48)) a
        (L.reverse.map (fun d => Char.ofNat (48 + d)))) =
      a * 10 ^ L.length + Nat.ofDigits 10 L := by
  induction L generalizing a with
  | nil => simp [Nat.ofDigits]
  | cons d t ih =>
    have hd : d < 10 := h d (by simp)
    have ht : ∀ x ∈ t, x < 10 := fun x hx => h x (by simp [hx])
    simp only [List.reverse_cons, List.map_append, List.map_cons, List.map_nil,
      List.foldl_append, List.foldl_cons, List.foldl_nil]
    rw [ih a ht, digit_ofNat_toNat d hd]
    rw [Nat.ofDigits_cons]
    simp only [List.length_cons, pow_succ, Nat.add_sub_cancel_left]
    ring

theorem digitsVal_natDigits (n : Nat) : digitsVal (natDigits n) = n := by
  unfold natDigits
  by_cases h : n = 0
  · subst h; decide
  · rw [if_neg h]
    unfold digitsVal
    rw [digitsVal_fold (Nat.digits 10 n) 0 (fun d hd => Nat.digits_lt_base (by norm_num) hd)]
    simp [Nat.ofDigits_digits]

theorem natDigits_all_digitB (n : Nat) : ∀ c ∈ natDigits n, digitB c = true := by
  unfold natDigits
  by_cases h : n = 0
  · subst h; decide
  · rw [if_neg h]
    intro c hc
    simp only [List.mem_map, List.mem_reverse] at hc
    obtain ⟨d, hd, rfl⟩ := hc
    exact digit_ofNat_digitB d (Nat.digits_lt_base (by norm_num) hd)

theorem natDigits_ne_nil (n : Nat) : natDigits n ≠ [] := by
  unfold natDigits
  by_cases h : n = 0
  · subst h; simp
  · rw [if_neg h]
    simp only [ne_eq, List.map_eq_nil_iff, List.reverse_eq_nil_iff]
    exact Nat.digits_ne_nil_iff_ne_zero.mpr h

theorem pNat_natDigits (n : Nat) (rest : List Char) (hrest : noDigitHead rest) :
    pNat (natDigits n ++ rest) = some (n, rest) := by
  unfold pNat
  have htake : (natDigits n ++ rest).takeWhile digitB = natDigits n := by
    rw [List.takeWhile_append, takeWhile_all (natDigits_all_digitB n)]
    rw [if_pos rfl]
    cases rest with
    | nil => simp
    | cons c t =>
      rw [takeWhile_cons_neg (hrest c (by simp))]
      simp
  have hdrop : (natDigits n ++ rest).dropWhile digitB = rest := by
    rw [dropWhile_append_all (natDigits_all_digitB n)]
    cases rest with
    | nil => simp
    | cons c t => exact dropWhile_cons_neg (hrest c (by simp))
  rw [htake, hdrop]
  have hne := natDigits_ne_nil n
  cases hnd : natDigits n with
  | nil => exact absurd hnd hne
  | cons c t =>
    simp only []
    rw [← hnd, digitsVal_natDigits]

theorem pInt_serInt (i : Int) (rest : List Char) (hrest : noDigitHead rest) :
    pInt (serInt i ++ rest) = some (i, rest) := by
  unfold pInt serInt
  by_cases h : i < 0
  · rw [if_pos h]
    simp only [List.cons_append, List.head?_cons, List.tail_cons]
    rw [if_pos (trivial : True)]
    rw [pNat_natDigits i.natAbs rest hrest]
    have hval : -((i.natAbs : Nat) : Int) = i := by omega
    simp only [Option.map_some']
    rw [hval]
  · rw [if_neg h]
    have hne := natDigits_ne_nil i.natAbs
    cases hnd : natDigits i.natAbs with
    | nil => exact absurd hnd hne
    | cons c t =>
      have hc : digitB c = true := natDigits_all_digitB i.natAbs c (by rw [hnd]; simp)
      have hcm : c ≠ '-' := (digitB_char_facts hc).2.2.2.2.2.2.2.2.2.2
      simp only [List.cons_append, List.head?_cons]
      rw [if_neg (by simp [hcm])]
      rw [← List.cons_append, ← hnd, pNat_natDigits i.natAbs rest hrest]
      have hval : ((i.natAbs : Nat) : Int) = i := by omega
      simp only [Option.map_some']
      rw [hval]

/-! ## Round trip for string literals -/

theorem escList_nil : escList [] = [] := rfl

theorem escList_cons (c : Char) (t : List Char) :
    escList (c :: t) = escChar c ++ escList t := rfl

theorem pStrBody_quote (r : List Char) : pStrBody ('"' :: r) = some ([], r) := by
  rw [pStrBody.eq_def]; simp

theorem pStrBody_bs_quote (r : List Char) :
    pStrBody ('\\' :: '"' :: r) = (pStrBody r).map (fun q => ('"' :: q.1, q.2)) := by
  rw [pStrBody.eq_def]; simp [escCode]

theorem pStrBody_bs_bs (r : List Char) :
    pStrBody ('\\' :: '\\' :: r) = (pStrBody r).map (fun q => ('\\' :: q.1, q.2)) := by
  rw [pStrBody.eq_def]; simp [escCode]

theorem pStrBody_bs_b (r : List Char) :
    pStrBody ('\\' :: 'b' :: r) = (pStrBody r).map (fun q => ('\x08' :: q.1, q.2)) := by
  rw [pStrBody.eq_def]; simp [escCode]

theorem pStrBody_bs_f (r : List Char) :
    pStrBody ('\\' :: 'f' :: r) = (pStrBody r).map (fun q => ('\x0c' :: q.1, q.2)) := by
  rw [pStrBody.eq_def]; simp [escCode]

theorem pStrBody_bs_n (r : List Char) :
    pStrBody ('\\' :: 'n' :: r) = (pStrBody r).map (fun q => ('\n' :: q.1, q.2)) := by
  rw [pStrBody.eq_def]; simp [escCode]

theorem pStrBody_bs_r (r : List Char) :
    pStrBody ('\\' :: 'r' :: r) = (pStrBody r).map (fun q => ('\r' :: q.1, q.2)) := by
  rw [pStrBody.eq_def]; simp [escCode]

theorem pStrBody_bs_t (r : List Char) :
    pStrBody ('\\' :: 't' :: r) = (pStrBody r).map (fun q => ('\t' :: q.1, q.2)) := by
  rw [pStrBody.eq_def]; simp [escCode]

theorem pStrBody_bs_u (h1 h2 h3 h4 : Char) (r : List Char) (a b cc d : Nat)
    (e1 : hexVal h1 = some a) (e2 : hexVal h2 = some b) (e3 : hexVal h3 = some cc)
    (e4 : hexVal h4 = some d) :
    pStrBody ('\\' :: 'u' :: h1 :: h2 :: h3 :: h4 :: r) =
      (pStrBody r).map
        (fun q => (Char.ofNat (a * 4096 + b * 256 + cc * 16 + d) :: q.1, q.2)) := by
  rw [pStrBody.eq_def]
  simp only [e1, e2, e3, e4]
  simp

theorem pStrBody_plain (c : Char) (r : List Char) (h1 : ¬c = '"') (h2 : ¬c = '\\')
    (h3 : ¬c.toNat < 32) :
    pStrBody (c :: r) = (pStrBody r).map (fun q => (c :: q.1, q.2)) := by
  rw [pStrBody.eq_def]
  simp only []
  rw [if_neg h1, if_neg h2, if_neg h3]

theorem pStrBody_escList (s rest : List Char) :
    pStrBody (escList s ++ '"' :: rest) = some (s, rest) := by
  induction s with
  | nil => simp [escList_nil, pStrBody_quote]
  | cons c t ih =>
    rw [escList_cons, List.append_assoc]
    by_cases h1 : c = '"'
    · subst h1
      rw [show escChar '"' = ['\\', '"'] from rfl]
      simp only [List.cons_append, List.nil_append]
      rw [pStrBody_bs_quote, ih]; rfl
    · by_cases h2 : c = '\\'
      · subst h2
        rw [show escChar '\\' = ['\\', '\\'] from rfl]
        simp only [List.cons_append, List.nil_append]
        rw [pStrBody_bs_bs, ih]; rfl
      · by_cases h3 : c = '\x08'
        · subst h3
          rw [show escChar '\x08' = ['\\', 'b'] from rfl]
          simp only [List.cons_append, List.nil_append]
          rw [pStrBody_bs_b, ih]; rfl
        · by_cases h4 : c = '\x0c'
          · subst h4
            rw [show escChar '\x0c' = ['\\', 'f'] from rfl]
            simp only [List.cons_append, List.nil_append]
            rw [pStrBody_bs_f, ih]; rfl
          · by_cases h5 : c = '\n'
            · subst h5
              rw [show escChar '\n' = ['\\', 'n'] from rfl]
              simp only [List.cons_append, List.nil_append]
              rw [pStrBody_bs_n, ih]; rfl
            · by_cases h6 : c = '\r'
              · subst h6
                rw [show escChar '\r' = ['\\', 'r'] from rfl]
                simp only [List.cons_append, List.nil_append]
                rw [pStrBody_bs_r, ih]; rfl
              · by_cases h7 : c = '\t'
                · subst h7
                  rw [show escChar '\t' = ['\\', 't'] from rfl]
                  simp only [List.cons_append, List.nil_append]
                  rw [pStrBody_bs_t, ih]; rfl
                · by_cases h8 : c.toNat < 32
                  · rw [escChar, if_neg h1, if_neg h2, if_neg h3, if_neg h4, if_neg h5,
                      if_neg h6, if_neg h7, if_pos h8]
                    have e1 : c.toNat / 4096 % 16 = 0 := by omega
                    have e2 : c.toNat / 256 % 16 = 0 := by omega
                    have e3 : c.toNat / 16 % 16 = c.toNat / 16 := by omega
                    have l3 : c.toNat / 16 < 16 := by omega
                    have l4 : c.toNat % 16 < 16 := by omega
                    simp only [hex4, e1, e2, e3, List.cons_append, List.nil_append]
                    rw [pStrBody_bs_u _ _ _ _ _ 0 0 (c.toNat / 16) (c.toNat % 16)
                      (hexVal_hexDigitChar 0 (by norm_num)) (hexVal_hexDigitChar 0 (by norm_num))
                      (hexVal_hexDigitChar _ l3) (hexVal_hexDigitChar _ l4)]
                    have hv : 0 * 4096 + 0 * 256 + c.toNat / 16 * 16 + c.toNat % 16 = c.toNat := by
                      omega
                    rw [hv, Char.ofNat_toNat, ih]; rfl
                  · rw [escChar, if_neg h1, if_neg h2, if_neg h3, if_neg h4, if_neg h5,
                      if_neg h6, if_neg h7, if_neg h8]
                    simp only [List.cons_append, List.nil_append]
                    rw [pStrBody_plain c _ h1 h2 h8, ih]; rfl

/-! ## Head and budget facts about the serializer -/

theorem serItems_single (x : Json) : serItems [x] = serVal x := by
  rw [serItems]

theorem serItems_cons2 (x y : Json) (t : List Json) :
    serItems (x :: y :: t) = serVal x ++ ',' :: ' ' :: serItems (y :: t) := by
  rw [serItems]

theorem serFields_single (k : String) (v : Json) :
    serFields [(k, v)] = serStrL k.data ++ ':' :: ' ' :: serVal v := by
  rw [serFields]

theorem serFields_cons2 (k : String) (v : Json) (m : String × Json) (t : List (String × Json)) :
    serFields ((k, v) :: m :: t) =
      (serStrL k.data ++ ':' :: ' ' :: serVal v) ++ ',' :: ' ' :: serFields (m :: t) := by
  rw [serFields]

theorem skipWs_cons_neg {c : Char} {t : List Char} (h : jsonWs c = false) :
    skipWs (c :: t) = c :: t := dropWhile_cons_neg h

theorem skipWs_space (z : List Char) : skipWs (' ' :: z) = skipWs z := by
  simp [skipWs, List.dropWhile, jsonWs]

theorem pVal_space (fuel : Nat) (z : List Char) : pVal fuel (' ' :: z) = pVal fuel z := by
  cases fuel with
  | zero => rfl
  | succ f =>
    unfold pVal
    rw [skipWs_space]

theorem pItems_space (fuel : Nat) (z : List Char) :
    pItems (fuel + 1) (' ' :: z) = pItems (fuel + 1) z := by
  unfold pItems
  rw [pVal_space]

theorem pFields_space (fuel : Nat) (z : List Char) :
    pFields (fuel + 1) (' ' :: z) = pFields (fuel + 1) z := by
  unfold pFields
  rw [skipWs_space]

theorem needV_pos (d : Json) : 1 ≤ needV d := by
  cases d <;> simp [needV]

theorem needItems_pos {xs : List Json} (h : xs ≠ []) : 1 ≤ needItems xs := by
  cases xs with
  | nil => exact absurd rfl h
  | cons x t => simp [needItems]; omega

theorem needFields_pos {fs : List (String × Json)} (h : fs ≠ []) : 1 ≤ needFields fs := by
  cases fs with
  | nil => exact absurd rfl h
  | cons e t => obtain ⟨k, v⟩ := e; simp [needFields]; omega

theorem serVal_head (d : Json) :
    ∃ c t, serVal d = c :: t ∧ jsonWs c = false ∧ c ≠ ']' := by
  cases d with
  | null => exact ⟨'n', _, by rw [serVal], by decide, by decide⟩
  | bool b =>
    cases b with
    | true => exact ⟨'t', _, by rw [serVal], by decide, by decide⟩
    | false => exact ⟨'f', _, by rw [serVal], by decide, by decide⟩
  | num i =>
    rw [show serVal (.num i) = serInt i from by rw [serVal]]
    unfold serInt
    by_cases h : i < 0
    · rw [if_pos h]
      exact ⟨'-', _, rfl, by decide, by decide⟩
    · rw [if_neg h]
      cases hnd : natDigits i.natAbs with
      | nil => exact absurd hnd (natDigits_ne_nil i.natAbs)
      | cons c t =>
        have hc : digitB c = true := natDigits_all_digitB i.natAbs c (by rw [hnd]; simp)
        have hf := digitB_char_facts hc
        exact ⟨c, t, rfl, hf.1, hf.2.2.2.2.2.2.2.2.1⟩
  | str s => exact ⟨'"', _, by rw [serVal]; rfl, by decide, by decide⟩
  | arr xs => exact ⟨'[', _, by rw [serVal], by decide, by decide⟩
  | obj fs => exact ⟨'{', _, by rw [serVal], by decide, by decide⟩

/-! ## Dispatch equations for the value parser -/

theorem pVal_null (fuel : Nat) (rest : List Char) :
    pVal (fuel + 1) ('n' :: 'u' :: 'l' :: 'l' :: rest) = some (.null, rest) := by
  unfold pVal
  rw [skipWs_cons_neg (by decide)]
  simp

theorem pVal_true (fuel : Nat) (rest : List Char) :
    pVal (fuel + 1) ('t' :: 'r' :: 'u' :: 'e' :: rest) = some (.bool true, rest) := by
  unfold pVal
  rw [skipWs_cons_neg (by decide)]
  simp

theorem pVal_false (fuel : Nat) (rest : List Char) :
    pVal (fuel + 1) ('f' :: 'a' :: 'l' :: 's' :: 'e' :: rest) = some (.bool false, rest) := by
  unfold pVal
  rw [skipWs_cons_neg (by decide)]
  simp

theorem pVal_quote (fuel : Nat) (cs : List Char) :
    pVal (fuel + 1) ('"' :: cs) =
      (pStrBody cs).map (fun q => (.str (String.mk q.1), q.2)) := by
  unfold pVal
  rw [skipWs_cons_neg (by decide)]
  simp

theorem pVal_lbracket (fuel : Nat) (cs : List Char) :
    pVal (fuel + 1) ('[' :: cs) = (match skipWs cs with
      | ']' :: r => some (.arr [], r)
      | cs2 => (pItems fuel cs2).map (fun q => (.arr q.1, q.2))) := rfl

theorem pVal_lbrace (fuel : Nat) (cs : List Char) :
    pVal (fuel + 1) ('{' :: cs) = (match skipWs cs with
      | '}' :: r => some (.obj [], r)
      | cs2 => (pFields fuel cs2).map (fun q => (.obj q.1, q.2))) := rfl

theorem pVal_arr_nil (fuel : Nat) (cs r : List Char) (h : skipWs cs = ']' :: r) :
    pVal (fuel + 1) ('[' :: cs) = some (.arr [], r) := by
  rw [pVal_lbracket, h]
  rfl

theorem pVal_arr_go (fuel : Nat) (cs : List Char) (c2 : Char) (w : List Char)
    (h : skipWs cs = c2 :: w) (hne : c2 ≠ ']') :
    pVal (fuel + 1) ('[' :: cs) = (pItems fuel (c2 :: w)).map (fun q => (.arr q.1, q.2)) := by
  rw [pVal_lbracket, h]
  split
  · rename_i r heq
    rw [List.cons.injEq] at heq
    exact absurd heq.1 hne
  · rfl

theorem pVal_obj_nil (fuel : Nat) (cs r : List Char) (h : skipWs cs = '}' :: r) :
    pVal (fuel + 1) ('{' :: cs) = some (.obj [], r) := by
  rw [pVal_lbrace, h]
  rfl

theorem pVal_obj_go (fuel : Nat) (cs : List Char) (c2 : Char) (w : List Char)
    (h : skipWs cs = c2 :: w) (hne : c2 ≠ '}') :
    pVal (fuel + 1) ('{' :: cs) = (pFields fuel (c2 :: w)).map (fun q => (.obj q.1, q.2)) := by
  rw [pVal_lbrace, h]
  split
  · rename_i r heq
    rw [List.cons.injEq] at heq
    exact absurd heq.1 hne
  · rfl

theorem pVal_num_head (fuel : Nat) (c : Char) (cs : List Char) (hws : jsonWs c = false)
    (hn : c ≠ 'n') (ht : c ≠ 't') (hf : c ≠ 'f') (hq : c ≠ '"') (hlb : c ≠ '[')
    (hob : c ≠ '{') (hd : c = '-' ∨ digitB c = true) :
    pVal (fuel + 1) (c :: cs) = (pInt (c :: cs)).map (fun q => (.num q.1, q.2)) := by
  unfold pVal
  rw [skipWs_cons_neg hws]
  simp only [if_neg hn, if_neg ht, if_neg hf, if_neg hq, if_neg hlb, if_neg hob]
  have : (c = '-' || digitB c) = true := by
    rcases hd with h | h
    · simp [h]
    · simp [h]
  rw [if_pos this]

theorem skipWs_quote (z : List Char) : skipWs ('"' :: z) = '"' :: z :=
  skipWs_cons_neg (by decide)

theorem skipWs_colon (z : List Char) : skipWs (':' :: z) = ':' :: z :=
  skipWs_cons_neg (by decide)

theorem skipWs_comma (z : List Char) : skipWs (',' :: z) = ',' :: z :=
  skipWs_cons_neg (by decide)

theorem skipWs_rbracket (z : List Char) : skipWs (']' :: z) = ']' :: z :=
  skipWs_cons_neg (by decide)

theorem skipWs_rbrace (z : List Char) : skipWs ('}' :: z) = '}' :: z :=
  skipWs_cons_neg (by decide)

/-! ## The parser inverts the serializer -/

theorem parse_ser_all : ∀ fuel : Nat,
    (∀ d rest, needV d ≤ fuel → numOk d rest →
      pVal fuel (serVal d ++ rest) = some (d, rest)) ∧
    (∀ xs rest, xs ≠ [] → needItems xs ≤ fuel →
      pItems fuel (serItems xs ++ ']' :: rest) = some (xs, rest)) ∧
    (∀ fs rest, fs ≠ [] → needFields fs ≤ fuel →
      pFields fuel (serFields fs ++ '}' :: rest) = some (fs, rest)) := by
  intro fuel
  induction fuel with
  | zero =>
    refine ⟨fun d rest hf _ => absurd hf (by have := needV_pos d; omega),
      fun xs rest hne hf => absurd hf (by have := needItems_pos hne; omega),
      fun fs rest hne hf => absurd hf (by have := needFields_pos hne; omega)⟩
  | succ fuel ih =>
    obtain ⟨ihV, ihI, ihF⟩ := ih
    refine ⟨?_, ?_, ?_⟩
    · intro d rest hfuel hrest
      cases d with
      | null =>
        rw [show serVal .null ++ rest = 'n' :: 'u' :: 'l' :: 'l' :: rest from by
          rw [serVal]; rfl]
        exact pVal_null fuel rest
      | bool b =>
        cases b with
        | true =>
          rw [show serVal (.bool true) ++ rest = 't' :: 'r' :: 'u' :: 'e' :: rest from by
            rw [serVal]; rfl]
          exact pVal_true fuel rest
        | false =>
          rw [show serVal (.bool false) ++ rest = 'f' :: 'a' :: 'l' :: 's' :: 'e' :: rest from by
            rw [serVal]; rfl]
          exact pVal_false fuel rest
      | num i =>
        have hni : noDigitHead rest := hrest i rfl
        rw [show serVal (.num i) = serInt i from by rw [serVal]]
        by_cases hneg : i < 0
        · have hser : serInt i = '-' :: natDigits i.natAbs := by
            unfold serInt; rw [if_pos hneg]
          rw [hser, List.cons_append]
          rw [pVal_num_head fuel '-' _ (by decide) (by decide) (by decide) (by decide)
            (by decide) (by decide) (by decide) (Or.inl rfl)]
          rw [← List.cons_append, ← hser, pInt_serInt i rest hni]
          rfl
        · have hser : serInt i = natDigits i.natAbs := by
            unfold serInt; rw [if_neg hneg]
          rw [hser]
          cases hnd : natDigits i.natAbs with
          | nil => exact absurd hnd (natDigits_ne_nil _)
          | cons c t =>
            have hc : digitB c = true := natDigits_all_digitB _ c (by rw [hnd]; simp)
            have hfc := digitB_char_facts hc
            rw [List.cons_append]
            rw [pVal_num_head fuel c _ hfc.1 hfc.2.2.1 hfc.2.2.2.1 hfc.2.2.2.2.1
              hfc.2.2.2.2.2.1 hfc.2.2.2.2.2.2.1 hfc.2.2.2.2.2.2.2.1 (Or.inr hc)]
            rw [← List.cons_append, ← hnd, ← hser, pInt_serInt i rest hni]
            rfl
      | str s =>
        rw [show serVal (.str s) ++ rest = '"' :: (escList s.data ++ '"' :: rest) from by
          rw [serVal]; simp [serStrL]]
        rw [pVal_quote, pStrBody_escList]
        simp [strMk_data]
      | arr xs =>
        cases xs with
        | nil =>
          rw [show serVal (.arr []) ++ rest = '[' :: (']' :: rest) from by
            rw [serVal, serItems]; rfl]
          exact pVal_arr_nil fuel _ rest (skipWs_rbracket rest)
        | cons x xs2 =>
          rw [show serVal (.arr (x :: xs2)) ++ rest =
              '[' :: (serItems (x :: xs2) ++ ']' :: rest) from by rw [serVal]; simp]
          obtain ⟨c, t, hct, hcw, hcr⟩ := serVal_head x
          obtain ⟨z, hz⟩ : ∃ z, serItems (x :: xs2) = c :: z := by
            cases xs2 with
            | nil => exact ⟨t, by rw [serItems_single, hct]⟩
            | cons y t2 =>
              exact ⟨t ++ ',' :: ' ' :: serItems (y :: t2), by
                rw [serItems_cons2, hct]; rfl⟩
          rw [hz, List.cons_append]
          rw [pVal_arr_go fuel _ c (z ++ ']' :: rest) (skipWs_cons_neg hcw) hcr]
          rw [← List.cons_append, ← hz]
          have hbud : needItems (x :: xs2) ≤ fuel := by
            have he : needV (.arr (x :: xs2)) = 1 + needItems (x :: xs2) := by rw [needV]
            omega
          rw [ihI (x :: xs2) rest (by simp) hbud]
          rfl
      | obj fs =>
        cases fs with
        | nil =>
          rw [show serVal (.obj []) ++ rest = '{' :: ('}' :: rest) from by
            rw [serVal, serFields]; rfl]
          exact pVal_obj_nil fuel _ rest (skipWs_rbrace rest)
        | cons e fs2 =>
          obtain ⟨k, v⟩ := e
          rw [show serVal (.obj ((k, v) :: fs2)) ++ rest =
              '{' :: (serFields ((k, v) :: fs2) ++ '}' :: rest) from by rw [serVal]; simp]
          obtain ⟨z, hz⟩ : ∃ z, serFields ((k, v) :: fs2) = '"' :: z := by
            cases fs2 with
            | nil =>
              exact ⟨escList k.data ++ ['"'] ++ (':' :: ' ' :: serVal v), by
                rw [serFields_single]; simp [serStrL]⟩
            | cons m t2 =>
              refine ⟨escList k.data ++ ['"'] ++ (':' :: ' ' :: serVal v) ++
                ',' :: ' ' :: serFields (m :: t2), ?_⟩
              rw [serFields_cons2]; simp [serStrL]
          rw [hz, List.cons_append]
          rw [pVal_obj_go fuel _ '"' (z ++ '}' :: rest) (skipWs_quote _) (by decide)]
          rw [← List.cons_append, ← hz]
          have hbud : needFields ((k, v) :: fs2) ≤ fuel := by
            have he : needV (.obj ((k, v) :: fs2)) = 1 + needFields ((k, v) :: fs2) := by
              rw [needV]
            omega
          rw [ihF ((k, v) :: fs2) rest (by simp) hbud]
          rfl
    · intro xs rest hne hfuel
      cases xs with
      | nil => exact absurd rfl hne
      | cons x t =>
        have hneed : needItems (x :: t) = 1 + needV x + needItems t := by rw [needItems]
        have hvp := needV_pos x
        cases t with
        | nil =>
          rw [serItems_single]
          rw [pItems.eq_def]
          have hv := ihV x (']' :: rest)
            (by
              have e0 : needItems ([] : List Json) = 0 := by rw [needItems]
              omega)
            (fun n _ => noDigitHead_cons (by decide))
          simp only [hv, skipWs_rbracket]
        | cons y t2 =>
          have hip := needItems_pos (show (y :: t2) ≠ [] by simp)
          obtain ⟨g, rfl⟩ : ∃ g, fuel = g + 1 := ⟨fuel - 1, by omega⟩
          rw [show serItems (x :: y :: t2) ++ ']' :: rest =
              serVal x ++ ',' :: ' ' :: (serItems (y :: t2) ++ ']' :: rest) from by
            rw [serItems_cons2]; simp]
          rw [pItems.eq_def]
          have hv := ihV x (',' :: ' ' :: (serItems (y :: t2) ++ ']' :: rest))
            (by omega) (fun n _ => noDigitHead_cons (by decide))
          have hi := ihI (y :: t2) rest (by simp) (by omega)
          simp only [hv, skipWs_comma, pItems_space, hi]
          rfl
    · intro fs rest hne hfuel
      cases fs with
      | nil => exact absurd rfl hne
      | cons e fs2 =>
        obtain ⟨k, v⟩ := e
        have hneed : needFields ((k, v) :: fs2) = 1 + needV v + needFields fs2 := by
          rw [needFields]
        have hvp := needV_pos v
        cases fs2 with
        | nil =>
          rw [show serFields [(k, v)] ++ '}' :: rest =
              '"' :: (escList k.data ++ '"' :: (':' :: ' ' :: (serVal v ++ '}' :: rest))) from by
            rw [serFields_single]; simp [serStrL]]
          rw [pFields.eq_def]
          have hv := ihV v ('}' :: rest) (by omega) (fun n _ => noDigitHead_cons (by decide))
          simp only [skipWs_quote, pStrBody_escList, skipWs_colon, pVal_space, hv,
            skipWs_rbrace, strMk_data]
        | cons m t2 =>
          have hfp := needFields_pos (show (m :: t2) ≠ [] by simp)
          obtain ⟨g, rfl⟩ : ∃ g, fuel = g + 1 := ⟨fuel - 1, by omega⟩
          rw [show serFields ((k, v) :: m :: t2) ++ '}' :: rest =
              '"' :: (escList k.data ++ '"' :: (':' :: ' ' ::
                (serVal v ++ ',' :: ' ' :: (serFields (m :: t2) ++ '}' :: rest)))) from by
            rw [serFields_cons2]; simp [serStrL]]
          rw [pFields.eq_def]
          have hv := ihV v (',' :: ' ' :: (serFields (m :: t2) ++ '}' :: rest))
            (by omega) (fun n _ => noDigitHead_cons (by decide))
          have hfnext := ihF (m :: t2) rest (by simp) (by omega)
          simp only [skipWs_quote, pStrBody_escList, skipWs_colon, pVal_space, hv,
            skipWs_comma, pFields_space, hfnext, strMk_data]
          rfl

theorem serInt_length_pos (i : Int) : 1 ≤ (serInt i).length := by
  unfold serInt
  by_cases h : i < 0
  · rw [if_pos h]; simp
  · rw [if_neg h]
    exact List.length_pos.mpr (natDigits_ne_nil i.natAbs)

mutual

theorem needV_le : ∀ d : Json, needV d ≤ (serVal d).length
  | .null => by rw [needV, serVal]; simp
  | .bool true => by rw [needV, serVal]; simp
  | .bool false => by rw [needV, serVal]; simp
  | .num i => by rw [needV, serVal]; exact serInt_length_pos i
  | .str s => by rw [needV, serVal]; simp [serStrL]
  | .arr xs => by
    rw [needV, serVal]
    have h := needItems_le xs
    simp only [List.length_cons, List.length_append, List.length_cons, List.length_nil]
    omega
  | .obj fs => by
    rw [needV, serVal]
    have h := needFields_le fs
    simp only [List.length_cons, List.length_append, List.length_cons, List.length_nil]
    omega

theorem needItems_le : ∀ xs : List Json, needItems xs ≤ (serItems xs).length + 1
  | [] => by rw [needItems, serItems]; simp
  | [x] => by
    rw [needItems, serItems_single]
    have h := needV_le x
    have e0 : needItems ([] : List Json) = 0 := by rw [needItems]
    omega
  | x :: y :: t => by
    rw [needItems, serItems_cons2]
    have h1 := needV_le x
    have h2 := needItems_le (y :: t)
    simp only [List.length_append, List.length_cons]
    omega

theorem needFields_le : ∀ fs : List (String × Json), needFields fs ≤ (serFields fs).length + 1
  | [] => by rw [needFields, serFields]; simp
  | [(k, v)] => by
    rw [needFields, serFields_single]
    have h := needV_le v
    have e0 : needFields ([] : List (String × Json)) = 0 := by rw [needFields]
    simp only [List.length_append, List.length_cons]
    omega
  | (k, v) :: m :: t => by
    rw [needFields, serFields_cons2]
    have h1 := needV_le v
    have h2 := needFields_le (m :: t)
    simp only [List.length_append, List.length_cons]
    omega

end

theorem parseJsonL_serVal (d : Json) : parseJsonL (serVal d) = some d := by
  unfold parseJsonL
  have h := (parse_ser_all ((serVal d).length + 1)).1 d []
    (by have := needV_le d; omega) (fun n _ => noDigitHead_nil)
  rw [show serVal d ++ ([] : List Char) = serVal d from by simp] at h
  rw [h]
  rfl

theorem parseJson_serJson (d : Json) : parseJson (serJson d) = some d :=
  parseJsonL_serVal d

theorem parseJsonL_obj_garbage (fs : List (String × Json)) (tl : List Char)
    (h : '}' ∈ tl) : parseJsonL (serVal (.obj fs) ++ tl) = none := by
  unfold parseJsonL
  have hfuel : needV (.obj fs) ≤ (serVal (.obj fs) ++ tl).length + 1 := by
    have h1 := needV_le (.obj fs)
    have h2 : (serVal (.obj fs) ++ tl).length = (serVal (.obj fs)).length + tl.length := by
      simp
    omega
  have hp := (parse_ser_all ((serVal (.obj fs) ++ tl).length + 1)).1 (.obj fs) tl hfuel
    (fun n hn => by simp at hn)
  rw [hp]
  have hne : skipWs tl ≠ [] := by
    intro he
    have := List.dropWhile_eq_nil_iff.mp he _ h
    simp [jsonWs] at this
  simp [hne]

/-! ## Facts about fence stripping and the greedy brace region -/

theorem braceFree_nil : braceFree [] := by intro c hc; simp at hc

theorem braceFree_subset {l m : List Char} (h : braceFree l) (hsub : ∀ c ∈ m, c ∈ l) :
    braceFree m := fun c hc => h c (hsub c hc)

theorem braceFree_reverse {l : List Char} (h : braceFree l) : braceFree l.reverse :=
  braceFree_subset h (fun c hc => List.mem_reverse.mp hc)

theorem braceFree_dropWhile {p : Char → Bool} {l : List Char} (h : braceFree l) :
    braceFree (l.dropWhile p) :=
  braceFree_subset h (fun c hc => (List.dropWhile_sublist p).subset hc)

theorem braceFree_drop {n : Nat} {l : List Char} (h : braceFree l) :
    braceFree (l.drop n) :=
  braceFree_subset h (fun c hc => (List.drop_subset n l) hc)

theorem braceFree_append {a b : List Char} (ha : braceFree a) (hb : braceFree b) :
    braceFree (a ++ b) := by
  intro c hc
  rcases List.mem_append.mp hc with h | h
  · exact ha c h
  · exact hb c h

/-- `x` contains `ser` as a contiguous region, with only brace-free material
around it. -/
def SerMid (ser x : List Char) : Prop :=
  ∃ a b, x = a ++ (ser ++ b) ∧ braceFree a ∧ braceFree b

theorem serMid_dropWhile {p : Char → Bool} {ser x : List Char} {c0 : Char} {s0 : List Char}
    (hser : ser = c0 :: s0) (hp : p c0 = false) (h : SerMid ser x) :
    SerMid ser (x.dropWhile p) := by
  obtain ⟨a, b, rfl, ha, hb⟩ := h
  rw [List.dropWhile_append]
  by_cases he : (a.dropWhile p).isEmpty
  · rw [if_pos he]
    rw [hser]
    rw [show (c0 :: s0) ++ b = c0 :: (s0 ++ b) from rfl, dropWhile_cons_neg hp]
    exact ⟨[], b, by simp, braceFree_nil, hb⟩
  · rw [if_neg he]
    exact ⟨a.dropWhile p, b, rfl, braceFree_dropWhile ha, hb⟩

theorem serMid_reverse {ser x : List Char} (h : SerMid ser x) :
    SerMid ser.reverse x.reverse := by
  obtain ⟨a, b, rfl, ha, hb⟩ := h
  refine ⟨b.reverse, a.reverse, ?_, braceFree_reverse hb, braceFree_reverse ha⟩
  simp [List.reverse_append, List.append_assoc]

theorem serMid_trimL {ser x : List Char} {c0 cr : Char} {s0 sr : List Char}
    (hser : ser = c0 :: s0) (hrev : ser.reverse = cr :: sr)
    (hc : pyWs c0 = false) (hr : pyWs cr = false) (h : SerMid ser x) :
    SerMid ser (trimL x) := by
  unfold trimL
  have h1 := serMid_dropWhile hser hc h
  have h2 := serMid_reverse h1
  have h3 := serMid_dropWhile hrev hr h2
  have h4 := serMid_reverse h3
  rwa [List.reverse_reverse] at h4

theorem serMid_length_le {ser x : List Char} {c0 : Char} {s0 : List Char} {a b : List Char}
    (hser : ser = c0 :: s0) (hx : x = a ++ (ser ++ b)) (ha : braceFree a)
    {pat : List Char} (hpat : c0 ∉ pat) (hc0 : c0 = '{' ∨ c0 = '}')
    (hpre : pat.isPrefixOf x = true) : pat.length ≤ a.length := by
  by_contra hlt
  push_neg at hlt
  have hpfx : pat <+: x := List.isPrefixOf_iff_prefix.mp hpre
  obtain ⟨t, ht⟩ := hpfx
  have hval : pat[a.length]? = some c0 := by
    have h1 : (pat ++ t)[a.length]? = pat[a.length]? := by
      rw [List.getElem?_append]
      rw [if_pos hlt]
    have h2 : x[a.length]? = some c0 := by
      rw [hx, List.getElem?_append_right (le_refl a.length)]
      simp [hser]
    rw [← h1, ht, h2]
  obtain ⟨hl, he⟩ := List.getElem?_eq_some.mp hval
  exact hpat (he ▸ List.getElem_mem hl)

theorem serMid_stripPre (pat : List Char) {ser x : List Char} {c0 : Char} {s0 : List Char}
    (hser : ser = c0 :: s0) (hc : pyWs c0 = false) (hpat : c0 ∉ pat)
    (hc0 : c0 = '{' ∨ c0 = '}') (h : SerMid ser x) : SerMid ser (stripPre pat x) := by
  unfold stripPre
  by_cases hp : pat.isPrefixOf x = true
  · rw [if_pos hp]
    obtain ⟨a, b, hx, ha, hb⟩ := h
    have hlen := serMid_length_le hser hx ha hpat hc0 hp
    have hdrop : x.drop pat.length = a.drop pat.length ++ (ser ++ b) := by
      rw [hx, List.drop_append_of_le_length hlen]
    have hmid : SerMid ser (x.drop pat.length) :=
      ⟨a.drop pat.length, b, hdrop, braceFree_drop ha, hb⟩
    exact serMid_dropWhile hser hc hmid
  · rw [if_neg hp]
    exact h

theorem stripSufTicks_reverse (x : List Char) :
    stripSufTicks x = (stripPre ticks.reverse x.reverse).reverse := by
  unfold stripSufTicks stripPre
  by_cases hp : ticks.reverse.isPrefixOf x.reverse = true
  · rw [if_pos hp, if_pos hp]
    rfl
  · rw [if_neg hp, if_neg hp, List.reverse_reverse]

theorem serMid_stripSufTicks {ser x : List Char} {c0 cr : Char} {s0 sr : List Char}
    (hser : ser = c0 :: s0) (hrev : ser.reverse = cr :: sr)
    (hr : pyWs cr = false) (hpat : cr ∉ ticks.reverse) (hcr : cr = '{' ∨ cr = '}')
    (h : SerMid ser x) : SerMid ser (stripSufTicks x) := by
  rw [stripSufTicks_reverse]
  have h1 := serMid_reverse h
  have h2 := serMid_stripPre ticks.reverse hrev hr hpat hcr h1
  have h3 := serMid_reverse h2
  rwa [List.reverse_reverse] at h3

theorem serObj_shape (fs : List (String × Json)) :
    serVal (.obj fs) = '{' :: (serFields fs ++ ['}']) := by rw [serVal]

theorem serObj_rev_shape (fs : List (String × Json)) :
    (serVal (.obj fs)).reverse = '}' :: ((serFields fs).reverse ++ ['{']) := by
  rw [serObj_shape]
  simp

theorem serMid_fenceStrip {fs : List (String × Json)} {x : List Char}
    (h : SerMid (serVal (.obj fs)) x) : SerMid (serVal (.obj fs)) (fenceStripL x) := by
  have hser := serObj_shape fs
  have hrev := serObj_rev_shape fs
  unfold fenceStripL
  have h1 := serMid_trimL hser hrev (by decide) (by decide) h
  have h2 := serMid_stripPre ticksJson hser (by decide) (by decide) (Or.inl rfl) h1
  have h3 := serMid_stripPre ticks hser (by decide) (by decide) (Or.inl rfl) h2
  have h4 := serMid_stripSufTicks hser hrev (by decide) (by decide) (Or.inr rfl) h3
  exact serMid_trimL hser hrev (by decide) (by decide) h4

theorem braceRegion_serMid {fs : List (String × Json)} {x : List Char}
    (h : SerMid (serVal (.obj fs)) x) : braceRegionL x = some (serVal (.obj fs)) := by
  obtain ⟨a, b, rfl, ha, hb⟩ := h
  have hser := serObj_shape fs
  have hrev := serObj_rev_shape fs
  unfold braceRegionL
  have hafter :
      (a ++ (serVal (.obj fs) ++ b)).dropWhile (fun c => !(c = '{')) =
        serVal (.obj fs) ++ b := by
    rw [dropWhile_append_all (fun c hc => by
      have := (ha c hc).1
      simp [this])]
    rw [hser]
    rw [show ('{' :: (serFields fs ++ ['}'])) ++ b = '{' :: ((serFields fs ++ ['}']) ++ b)
      from rfl]
    exact dropWhile_cons_neg (by simp)
  have hrevdrop :
      (serVal (.obj fs) ++ b).reverse.dropWhile (fun c => !(c = '}')) =
        (serVal (.obj fs)).reverse := by
    rw [List.reverse_append]
    rw [dropWhile_append_all (fun c hc => by
      have := (braceFree_reverse hb c hc).2
      simp [this])]
    rw [hrev]
    exact dropWhile_cons_neg (by simp)
  simp only [hafter, hrevdrop, List.reverse_reverse]
  rw [hser]

theorem extract_embedded (fs : List (String × Json)) (a b : List Char)
    (ha : braceFree a) (hb : braceFree b) :
    extractStructuredL (a ++ (serVal (.obj fs) ++ b)) = some (.obj fs) := by
  have h0 : SerMid (serVal (.obj fs)) (a ++ (serVal (.obj fs) ++ b)) := ⟨a, b, rfl, ha, hb⟩
  have h1 := serMid_fenceStrip h0
  unfold extractStructuredL
  simp only [braceRegion_serMid h1]
  exact parseJsonL_serVal (.obj fs)

theorem ticks_eq : ticks = '\x60' :: '\x60' :: '\x60' :: [] := rfl

theorem ticksJson_eq :
    ticksJson = '\x60' :: '\x60' :: '\x60' :: 'j' :: 's' :: 'o' :: 'n' :: [] := rfl

theorem isPrefixOf_cons_ne {a b : Char} {l1 l2 : List Char} (h : (a == b) = false) :
    List.isPrefixOf (a :: l1) (b :: l2) = false := by
  simp [List.isPrefixOf]
  intro he
  rw [he] at h
  simp at h

theorem stripPre_no {pat x : List Char} (h : pat.isPrefixOf x = false) :
    stripPre pat x = x := by
  unfold stripPre
  simp [h]

theorem stripSufTicks_no {x : List Char} (h : ticks.reverse.isPrefixOf x.reverse = false) :
    stripSufTicks x = x := by
  unfold stripSufTicks
  simp [h]

theorem ticks_prefix_of_ticksJson {x : List Char} (h : ticksJson.isPrefixOf x = true) :
    ticks.isPrefixOf x = true := by
  have h1 : ticksJson <+: x := List.isPrefixOf_iff_prefix.mp h
  have h2 : ticks <+: ticksJson := ⟨"json".data, by decide⟩
  exact List.isPrefixOf_iff_prefix.mpr (h2.trans h1)

theorem trimL_eq_self {x : List Char} {c d : Char} {t u : List Char}
    (h1 : x = c :: t) (h2 : x.reverse = d :: u) (hc : pyWs c = false) (hd : pyWs d = false) :
    trimL x = x := by
  unfold trimL
  rw [h1, dropWhile_cons_neg hc, ← h1, h2, dropWhile_cons_neg hd, ← h2, List.reverse_reverse]

theorem fenceStripL_eq_self {x : List Char}
    (htrim : trimL x = x)
    (h1 : ticksJson.isPrefixOf x = false)
    (h2 : ticks.isPrefixOf x = false)
    (h3 : ticks.reverse.isPrefixOf x.reverse = false) :
    fenceStripL x = x := by
  unfold fenceStripL
  rw [htrim, stripPre_no h1, stripPre_no h2, stripSufTicks_no h3, htrim]

theorem braceRegionL_whole {x : List Char} {t u : List Char}
    (h1 : x = '{' :: t) (h2 : x.reverse = '}' :: u) : braceRegionL x = some x := by
  unfold braceRegionL
  have e1 : x.dropWhile (fun c => !(c = '{')) = x := by
    rw [h1]
    exact dropWhile_cons_neg (by simp)
  have e2 : x.reverse.dropWhile (fun c => !(c = '}')) = x.reverse := by
    rw [h2]
    exact dropWhile_cons_neg (by simp)
  simp only [e1, e2, List.reverse_reverse]
  rw [h1]

theorem extract_obj_garbage (fs : List (String × Json)) (tm : List Char) :
    extractStructuredL (serVal (.obj fs) ++ (tm ++ ['}'])) = none := by
  have hx1 : ∃ t, serVal (.obj fs) ++ (tm ++ ['}']) = '{' :: t := by
    rw [serObj_shape]
    exact ⟨_, rfl⟩
  have hx2 : ∃ u, (serVal (.obj fs) ++ (tm ++ ['}'])).reverse = '}' :: u := by
    refine ⟨tm.reverse ++ (serVal (.obj fs)).reverse, ?_⟩
    simp
  obtain ⟨t, ht⟩ := hx1
  obtain ⟨u, hu⟩ := hx2
  have htrim : trimL (serVal (.obj fs) ++ (tm ++ ['}'])) = serVal (.obj fs) ++ (tm ++ ['}']) :=
    trimL_eq_self ht hu (by decide) (by decide)
  have hp1 : ticksJson.isPrefixOf (serVal (.obj fs) ++ (tm ++ ['}'])) = false := by
    rw [ht, ticksJson_eq]
    exact isPrefixOf_cons_ne (by decide)
  have hp2 : ticks.isPrefixOf (serVal (.obj fs) ++ (tm ++ ['}'])) = false := by
    rw [ht, ticks_eq]
    exact isPrefixOf_cons_ne (by decide)
  have hp3 : ticks.reverse.isPrefixOf (serVal (.obj fs) ++ (tm ++ ['}'])).reverse = false := by
    rw [hu, show ticks.reverse = '\x60' :: '\x60' :: '\x60' :: [] from rfl]
    exact isPrefixOf_cons_ne (by decide)
  have hfs := fenceStripL_eq_self htrim hp1 hp2 hp3
  unfold extractStructuredL
  simp only [hfs, braceRegionL_whole ht hu]
  exact parseJsonL_obj_garbage fs (tm ++ ['}']) (by simp)

/-! ## The fallback loop -/

theorem orGo_success (call : String → Except String String) (pre : List String)
    (mdl : String) (post : List String) (err : String → String) (t : String)
    (hpre : ∀ m ∈ pre, call m = .error (err m)) (hmdl : call mdl = .ok t) :
    ∀ acc, orGo call (pre ++ mdl :: post) acc =
      .ok (t, acc ++ pre.map (fun m => m ++ ": " ++ err m)) := by
  induction pre with
  | nil =>
    intro acc
    simp only [List.nil_append, List.map_nil, List.append_nil]
    rw [orGo, hmdl]
  | cons m rest ih =>
    intro acc
    have hcall := hpre m (by simp)
    rw [List.cons_append, orGo]
    simp only [hcall]
    rw [ih (fun x hx => hpre x (by simp [hx]))]
    simp

theorem orGo_all_fail (call : String → Except String String) (ms : List String)
    (err : String → String) (h : ∀ m ∈ ms, call m = .error (err m)) :
    ∀ acc, orGo call ms acc =
      .error ("All OpenRouter models failed. Errors: " ++
        String.intercalate "; " (acc ++ ms.map (fun m => m ++ ": " ++ err m))) := by
  induction ms with
  | nil =>
    intro acc
    rw [orGo]
    simp
  | cons m rest ih =>
    intro acc
    have hcall := h m (by simp)
    rw [orGo]
    simp only [hcall]
    rw [ih (fun x hx => h x (by simp [hx]))]
    simp

/-! ## The registry -/

theorem trimL_dropWhile_self {p : Char → Bool} {l : List Char}
    (h : l.dropWhile p = l) (n : Nat) : (l.take n).dropWhile p = l.take n := by
  cases l with
  | nil => simp
  | cons c t =>
    have hc : p c = false := by
      cases hpc : p c with
      | false => rfl
      | true =>
        exfalso
        have hd : (c :: t).dropWhile p = t.dropWhile p := by simp [List.dropWhile, hpc]
        rw [hd] at h
        have hlen := congrArg List.length h
        have hle : (t.dropWhile p).length ≤ t.length := (List.dropWhile_sublist p).length_le
        simp at hlen
        omega
    cases n with
    | zero => simp
    | succ k =>
      rw [List.take_succ_cons]
      exact dropWhile_cons_neg hc

theorem dropWhile_dropWhile (p : Char → Bool) (l : List Char) :
    (l.dropWhile p).dropWhile p = l.dropWhile p := by
  induction l with
  | nil => rfl
  | cons c t ih =>
    by_cases hc : p c = true
    · simp [List.dropWhile, hc, ih]
    · rw [Bool.not_eq_true] at hc
      rw [dropWhile_cons_neg hc, dropWhile_cons_neg hc]

theorem trimL_idem (l : List Char) : trimL (trimL l) = trimL l := by
  unfold trimL
  set A := l.dropWhile pyWs with hA
  have hAA : A.dropWhile pyWs = A := dropWhile_dropWhile pyWs l
  set R := A.reverse.dropWhile pyWs with hR
  have hRR : R.dropWhile pyWs = R := dropWhile_dropWhile pyWs A.reverse
  have hsuf : R <:+ A.reverse := List.dropWhile_suffix pyWs
  have hpre : R.reverse <+: A := by
    have h2 : R.reverse.reverse <:+ A.reverse := by rwa [List.reverse_reverse]
    exact List.reverse_suffix.mp h2
  have htake : R.reverse = A.take R.reverse.length := List.prefix_iff_eq_take.mp hpre
  have h1 : R.reverse.dropWhile pyWs = R.reverse := by
    rw [htake]
    exact trimL_dropWhile_self hAA _
  rw [h1, List.reverse_reverse, hRR]

theorem pyTrim_idem (s : String) : pyTrim (pyTrim s) = pyTrim s :=
  congrArg String.mk (trimL_idem s.data)

theorem lookup_map_key_preserving {α : Type} (t : List (String × α)) (key k' : String)
    (c : α) (hk : k' ≠ key) :
    registryLookup (t.map (fun e => if e.1 == key then (e.1, c) else e)) k' =
      registryLookup t k' := by
  induction t with
  | nil => rfl
  | cons e t ih =>
    unfold registryLookup at ih ⊢
    simp only [List.map_cons, List.find?]
    by_cases hek : (e.1 == key) = true
    · have heq : e.1 = key := by simpa using hek
      have hek' : (e.1 == k') = false := by
        simp [heq]
        exact fun hh => absurd hh.symm hk
      simp only [hek, if_true, hek']
      exact ih
    · rw [Bool.not_eq_true] at hek
      have hFe : (if (e.1 == key) = true then (e.1, c) else e) = e := if_neg (by simp [hek])
      simp only [hFe]
      by_cases hek2 : (e.1 == k') = true
      · simp only [hek2]
      · rw [Bool.not_eq_true] at hek2
        simp only [hek2]
        exact ih

theorem register_cons_ne {α : Type} (e : String × α) (t : List (String × α))
    (n : String) (c : α) (h : (e.1 == strLower n) = false) :
    register_provider (e :: t) n c = e :: register_provider t n c := by
  unfold register_provider
  have hfind : (e :: t).find? (fun x => x.1 == strLower n) =
      t.find? (fun x => x.1 == strLower n) := by
    rw [List.find?]
    rw [h]
  rw [hfind]
  by_cases hs : (t.find? (fun x => x.1 == strLower n)).isSome = true
  · rw [if_pos hs, if_pos hs]
    have hFe : (if (e.1 == strLower n) = true then (e.1, c) else e) = e :=
      if_neg (by simp [h])
    rw [List.map_cons, hFe]
  · rw [if_neg hs, if_neg hs]
    rfl

theorem lookup_register_self {α : Type} (reg : List (String × α)) (n : String) (c : α) :
    registryLookup (register_provider reg n c) (strLower n) = some c := by
  induction reg with
  | nil =>
    unfold register_provider registryLookup
    simp [List.find?]
  | cons e t ih =>
    by_cases he : (e.1 == strLower n) = true
    · unfold register_provider
      have hfind : ((e :: t).find? (fun x => x.1 == strLower n)).isSome = true := by
        rw [List.find?, he]
        rfl
      rw [if_pos hfind]
      unfold registryLookup
      simp only [List.map_cons, he, if_true, List.find?]
      rfl
    · rw [Bool.not_eq_true] at he
      rw [register_cons_ne e t n c he]
      unfold registryLookup
      rw [List.find?, he]
      exact ih

theorem lookup_register_ne {α : Type} (reg : List (String × α)) (n k' : String) (c : α)
    (h : k' ≠ strLower n) :
    registryLookup (register_provider reg n c) k' = registryLookup reg k' := by
  induction reg with
  | nil =>
    unfold register_provider registryLookup
    have : (strLower n == k') = false := by
      simp
      exact fun hh => absurd hh.symm h
    simp [List.find?, this]
  | cons e t ih =>
    by_cases he : (e.1 == strLower n) = true
    · unfold register_provider
      have hfind : ((e :: t).find? (fun x => x.1 == strLower n)).isSome = true := by
        rw [List.find?, he]
        rfl
      rw [if_pos hfind]
      exact lookup_map_key_preserving (e :: t) (strLower n) k' c h
    · rw [Bool.not_eq_true] at he
      rw [register_cons_ne e t n c he]
      unfold registryLookup
      rw [List.find?]
      by_cases he2 : (e.1 == k') = true
      · rw [he2, List.find?, he2]
      · rw [Bool.not_eq_true] at he2
        rw [he2, List.find?, he2]
        exact ih

/-! ## The claims -/

/-- Claim C1: for a multi-model provider whose candidate list splits as
`pre ++ mdl :: post` where every model in `pre` fails and `mdl` succeeds with
text `t`, `get_response` returns `t`; the fallback loop's attempt log at that
point is exactly the failed candidates of `pre`, each paired with its error
message, in attempt order; and the result is unchanged under any vendor-call
function that agrees on `pre` and `mdl` (no later candidate is attempted). -/
theorem claim_C1_fallback_first_success (p : OpenRouterProvider) (call : Call)
    (messages : List Msg) (pre : List String) (mdl : String) (post : List String)
    (err : String → String) (t : String)
    (hconf : p.is_configured = true)
    (hmodels : p.models = pre ++ mdl :: post)
    (hpre : ∀ m ∈ pre, call m messages = .error (err m))
    (hmdl : call mdl messages = .ok t) :
    p.get_response call messages = .ok t ∧
    orGo (fun m => call m messages) p.models [] =
      .ok (t, pre.map (fun m => m ++ ": " ++ err m)) ∧
    (∀ call2 : Call, (∀ m ∈ pre, call2 m messages = call m messages) →
      call2 mdl messages = .ok t → p.get_response call2 messages = .ok t) := by
  have hgo := orGo_success (fun m => call m messages) pre mdl post err t hpre hmdl []
  rw [List.nil_append] at hgo
  refine ⟨?_, by rw [hmodels]; exact hgo, ?_⟩
  · unfold OpenRouterProvider.get_response
    rw [if_pos hconf, hmodels, hgo]
    rfl
  · intro call2 h2pre h2mdl
    have hgo2 := orGo_success (fun m => call2 m messages) pre mdl post err t
      (fun m hm => by
        show call2 m messages = Except.error (err m)
        rw [h2pre m hm]
        exact hpre m hm) h2mdl []
    rw [List.nil_append] at hgo2
    unfold OpenRouterProvider.get_response
    rw [if_pos hconf, hmodels, hgo2]
    rfl

/-- Witness for C1 at a concrete three-candidate provider: the first two
candidates fail, the third succeeds, the text of the third is returned and
the log holds exactly the two failures in order. -/
theorem claim_C1_witness :
    (⟨some "k", ["m1", "m2", "m3"]⟩ : OpenRouterProvider).get_response
        (fun m _ => if m = "m1" then .error "timeout"
          else if m = "m2" then .error "rate limited" else .ok "OK") [] = .ok "OK" ∧
    orGo (fun m => (fun (m : String) (_ : List Msg) => if m = "m1" then .error "timeout"
        else if m = "m2" then .error "rate limited" else .ok "OK") m [])
      ["m1", "m2", "m3"] [] = .ok ("OK", ["m1: timeout", "m2: rate limited"]) := by
  have h := claim_C1_fallback_first_success ⟨some "k", ["m1", "m2", "m3"]⟩
    (fun m _ => if m = "m1" then .error "timeout"
      else if m = "m2" then .error "rate limited" else .ok "OK") []
    ["m1", "m2"] "m3" []
    (fun m => if m = "m1" then "timeout" else "rate limited") "OK"
    rfl rfl
    (by
      intro m hm
      simp only [List.mem_cons, List.not_mem_nil, or_false] at hm
      rcases hm with rfl | rfl <;> rfl)
    rfl
  exact ⟨h.1, h.2.1.trans (by rfl)⟩

/-- Claim C3: when every candidate of a configured multi-model provider fails,
`get_response` raises the aggregate error whose message is exactly the fixed
prelude followed by the `"model: error"` entries of all candidates joined with
`"; "`, preserving attempt order and omitting none. -/
theorem claim_C3_all_fail (p : OpenRouterProvider) (call : Call) (messages : List Msg)
    (err : String → String)
    (hconf : p.is_configured = true)
    (hall : ∀ m ∈ p.models, call m messages = .error (err m)) :
    p.get_response call messages =
      .error ("All OpenRouter models failed. Errors: " ++
        String.intercalate "; " (p.models.map (fun m => m ++ ": " ++ err m))) := by
  unfold OpenRouterProvider.get_response
  rw [if_pos hconf]
  have h := orGo_all_fail (fun m => call m messages) p.models err hall []
  rw [List.nil_append] at h
  rw [h]
  rfl

/-- Witness for C3 at a concrete two-candidate provider: the aggregate message
contains both identifiers and both individual errors, in order. -/
theorem claim_C3_witness :
    (⟨some "k", ["m1", "m2"]⟩ : OpenRouterProvider).get_response
        (fun m _ => if m = "m1" then .error "boom1" else .error "boom2") [] =
      .error "All OpenRouter models failed. Errors: m1: boom1; m2: boom2" := by
  have h := claim_C3_all_fail ⟨some "k", ["m1", "m2"]⟩
    (fun m _ => if m = "m1" then .error "boom1" else .error "boom2") []
    (fun m => if m = "m1" then "boom1" else "boom2")
    rfl
    (by
      intro m hm
      simp only [List.mem_cons, List.not_mem_nil, or_false] at hm
      rcases hm with rfl | rfl <;> rfl)
  exact h.trans (by rfl)

/-- Claim C7 (code bug): `OpenRouterProvider.get_model_name` executes
`return self.model`, but `__init__` only ever assigns `self.models`, so the
attribute lookup raises `AttributeError` on every instance instead of
returning text identifying the candidate list. -/
theorem claim_C7_get_model_name_raises (p : OpenRouterProvider) :
    p.get_model_name =
      .error "AttributeError: 'OpenRouterProvider' object has no attribute 'model'" := rfl

/-- Claim C8 counterexample: the mock provider's payload does not echo the
most recent user message — two conversations with different user contents
produce the same payload, and the payload does not contain the user text. -/
theorem claim_C8_counterexample :
    MockProvider.init.get_response [⟨"user", "hello"⟩] =
      MockProvider.init.get_response [⟨"user", "world"⟩] ∧
    strContains (MockProvider.init.get_response [⟨"user", "hello"⟩]) "hello" = false := by
  refine ⟨rfl, ?_⟩
  set_option maxRecDepth 8192 in decide

/-- Claim C8 (amended): the mock provider is always configured, performs no
I/O, and returns one fixed schema-shaped JSON payload, independent of the
message sequence; the most recent user message is computed but unused. -/
theorem claim_C8_amended (messages : List Msg) :
    MockProvider.init.is_configured = true ∧
    MockProvider.init.get_response messages = mockResponseText :=
  ⟨rfl, rfl⟩

/-- Claim C4: whenever provider resolution and the provider call succeed with
reply text `reply`, the chat handler's output is the success branch carrying
`reply` verbatim together with the extraction result; the extraction result is
whatever `extractStructured` yields — a failed extraction degrades to `none`
inside the same success output and never reaches the error branch, as on the
reply `"not json at all"`. -/
theorem claim_C4_reply_verbatim :
    (∀ (reg : List (String × (Env → ProviderI))) (env : Env) (call : Call)
        (name : String) (messages : List Msg) (p : ProviderI) (reply : String),
      get_provider reg env name = .ok p →
      p.get_response call messages = .ok reply →
      chat reg env call name messages = .ok (reply, extractStructured reply)) ∧
    (∀ reply : String, buildChatOutput reply = .ok (reply, extractStructured reply)) ∧
    buildChatOutput "not json at all" = .ok ("not json at all", none) := by
  refine ⟨?_, fun reply => rfl, rfl⟩
  intro reg env call name messages p reply h1 h2
  unfold chat
  simp only [h1, h2]
  rfl

/-- Witness for C4 through the mock provider: resolution and respond succeed,
and the handler output is the success branch with the raw reply preserved. -/
theorem claim_C4_witness :
    chat defaultRegistry (fun _ => none) (fun _ _ => .error "no") "mock" [] =
      .ok (mockResponseText, extractStructured mockResponseText) :=
  claim_C4_reply_verbatim.1 defaultRegistry (fun _ => none) (fun _ _ => .error "no")
    "mock" [] (.mock MockProvider.init) mockResponseText rfl rfl

/-- Claim C9 counterexample: the text `" x "` neither begins nor ends with a
fence marker, yet the fence-stripping phase returns `"x"`, not the input — the
phase is not a no-op on untrimmed text because it strips whitespace. -/
theorem claim_C9_counterexample :
    fenceStrip " x " = "x" ∧ " x " ≠ "x" := by
  refine ⟨rfl, ?_⟩
  decide

/-- Claim C9 (amended): on already-trimmed text that neither begins nor ends
with a fence marker the fence-stripping phase is the identity, and the phase
handles the five fence shapes: no fence, fence with language tag, fence
without tag, opening fence only, closing fence only. -/
theorem claim_C9_amended :
    (∀ s : String, pyTrim s = s → ticks.isPrefixOf s.data = false →
      ticks.reverse.isPrefixOf s.data.reverse = false → fenceStrip s = s) ∧
    fenceStrip "hello" = "hello" ∧
    fenceStrip "```json\nhello\n```" = "hello" ∧
    fenceStrip "```\nhello\n```" = "hello" ∧
    fenceStrip "```json\nhello" = "hello" ∧
    fenceStrip "hello\n```" = "hello" := by
  refine ⟨?_, rfl, rfl, rfl, rfl, rfl⟩
  intro s h1 h2 h3
  have h0 : ticksJson.isPrefixOf s.data = false := by
    cases hc : ticksJson.isPrefixOf s.data with
    | false => rfl
    | true =>
      rw [ticks_prefix_of_ticksJson hc] at h2
      exact absurd h2 (by simp)
  have htrim : trimL s.data = s.data := congrArg String.data h1
  show String.mk (fenceStripL s.data) = s
  rw [fenceStripL_eq_self htrim h0 h2 h3]

/-- Witness for C9's amended identity clause at a concrete trimmed, unfenced
string. -/
theorem claim_C9_amended_witness : fenceStrip "plain text" = "plain text" :=
  claim_C9_amended.1 "plain text" (by decide) (by decide) (by decide)

/-- Claim C2 counterexample: on one balanced JSON object followed by trailing
prose with an unrelated closing brace, the extractor does not parse the first
balanced region (which parses fine on its own): the greedy first-to-last brace
capture spans the trailing brace and the parse fails, leaving no structured
result. -/
theorem claim_C2_counterexample :
    extractStructured "\x7b\"a\": 1\x7d see also \x7d" = none ∧
    parseJson "\x7b\"a\": 1\x7d" = some (.obj [("a", .num 1)]) := ⟨rfl, rfl⟩

/-- Claim C2 (amended): the extractor captures greedily from the first opening
brace to the last closing brace; for any serialized object followed by any
trailing text ending in an unrelated closing brace, the captured region spans
the trailing text, the parse fails, and the structured result is `none`. -/
theorem claim_C2_amended (fs : List (String × Json)) (tm : String) :
    extractStructured (serJson (.obj fs) ++ tm ++ "\x7d") = none := by
  have h : (serJson (.obj fs) ++ tm ++ "\x7d").data =
      serVal (.obj fs) ++ (tm.data ++ ['}']) := by
    simp [serJson, String.data_append]
  unfold extractStructured
  rw [h]
  exact extract_obj_garbage fs tm.data

/-- Claim C5: serializing an object document, wrapping it in a fenced code
block with or without a language tag, and surrounding it with arbitrary prose
containing no brace characters, extraction recovers a structured result equal
to the document. -/
theorem claim_C5_roundtrip (fs : List (String × Json)) (p1 p2 : String) (tag : Bool)
    (h1 : braceFree p1.data) (h2 : braceFree p2.data) :
    extractStructured (p1 ++ (if tag then "```json\n" else "```\n") ++
      serJson (.obj fs) ++ "\n```" ++ p2) = some (.obj fs) := by
  cases tag with
  | true =>
    unfold extractStructured
    have hd : (p1 ++ (if true then "```json\n" else "```\n") ++ serJson (.obj fs) ++
        "\n```" ++ p2).data =
        (p1.data ++ "```json\n".data) ++ (serVal (.obj fs) ++ ("\n```".data ++ p2.data)) := by
      simp [serJson, String.data_append, List.append_assoc]
    rw [hd]
    exact extract_embedded fs _ _ (braceFree_append h1 (by decide))
      (braceFree_append (by decide) h2)
  | false =>
    unfold extractStructured
    have hd : (p1 ++ (if false then "```json\n" else "```\n") ++ serJson (.obj fs) ++
        "\n```" ++ p2).data =
        (p1.data ++ "```\n".data) ++ (serVal (.obj fs) ++ ("\n```".data ++ p2.data)) := by
      simp [serJson, String.data_append, List.append_assoc]
    rw [hd]
    exact extract_embedded fs _ _ (braceFree_append h1 (by decide))
      (braceFree_append (by decide) h2)

/-- Witness for C5 at the spec's own end-to-end example document and prose. -/
theorem claim_C5_witness :
    extractStructured ("Sure! " ++ (if true then "```json\n" else "```\n") ++
      serJson (.obj [("a", .num 1)]) ++ "\n```" ++ " Hope that helps") =
      some (.obj [("a", .num 1)]) :=
  claim_C5_roundtrip [("a", .num 1)] "Sure! " " Hope that helps" true
    (by decide) (by decide)

/-- Claim C6 counterexample: with the Groq credential absent, the factory's
`get_provider` fails, but its error message does not name the missing
credential environment variable `GROQ_API_KEY` — it only names the provider
and says generically that an API key or configuration is missing. -/
theorem claim_C6_counterexample :
    get_provider defaultRegistry (fun _ => none) "groq" =
      .error "Provider 'groq' is not configured. Missing API key or configuration." ∧
    strContains "Provider 'groq' is not configured. Missing API key or configuration."
      "GROQ_API_KEY" = false := ⟨rfl, by decide⟩

/-- Claim C6 (amended): with the Groq credential absent, `is_configured` is
false and both the provider's own `respond` and the factory's `get` fail; the
provider's error names the credential variable `GROQ_API_KEY`, while the
factory's error names the provider identifier but not the credential
variable. -/
theorem claim_C6_amended (env : Env) (call : Call) (messages : List Msg)
    (h : env "GROQ_API_KEY" = none) :
    (GroqProvider.ofEnv env).is_configured = false ∧
    (GroqProvider.ofEnv env).get_response call messages =
      .error "Groq API key not configured. Set GROQ_API_KEY environment variable." ∧
    strContains "Groq API key not configured. Set GROQ_API_KEY environment variable."
      "GROQ_API_KEY" = true ∧
    get_provider defaultRegistry env "groq" =
      .error "Provider 'groq' is not configured. Missing API key or configuration." := by
  have hconf : (GroqProvider.ofEnv env).is_configured = false := by
    unfold GroqProvider.is_configured GroqProvider.ofEnv
    rw [h]
    rfl
  refine ⟨hconf, ?_, by decide, ?_⟩
  · unfold GroqProvider.get_response
    rw [if_neg (by rw [hconf]; simp)]
  · unfold get_provider
    have hn : normalizeName "groq" = "groq" := rfl
    rw [hn]
    have hl : registryLookup defaultRegistry "groq" =
        some (fun env => .groq (GroqProvider.ofEnv env)) := rfl
    simp only [hl]
    rw [if_neg (by simp [ProviderI.is_configured, hconf])]
    rfl

/-- Witness for C6's amended claim at the empty environment. -/
theorem claim_C6_witness :
    (GroqProvider.ofEnv (fun _ => none)).is_configured = false ∧
    (GroqProvider.ofEnv (fun _ => none)).get_response (fun _ _ => .error "e") [] =
      .error "Groq API key not configured. Set GROQ_API_KEY environment variable." ∧
    strContains "Groq API key not configured. Set GROQ_API_KEY environment variable."
      "GROQ_API_KEY" = true ∧
    get_provider defaultRegistry (fun _ => none) "groq" =
      .error "Provider 'groq' is not configured. Missing API key or configuration." :=
  claim_C6_amended (fun _ => none) (fun _ _ => .error "e") [] rfl

/-- Claim C10: after `register_provider id C` (registration lowercases the
identifier without trimming), a lookup `get_provider(s)` resolves to the fresh
constructor `C` exactly when `s` lowered and stripped equals `id` lowered;
consequently an identifier whose lowered form is not strip-fixed — one with
leading or trailing whitespace — can never be resolved, because lookup always
strips while registration does not. -/
theorem claim_C10_registry (α : Type) (reg : List (String × α)) (id : String) (C : α)
    (fresh : ∀ e ∈ reg, e.2 ≠ C) :
    (∀ s : String, resolveProvider (register_provider reg id C) s = some C ↔
      normalizeName s = strLower id) ∧
    (pyTrim (strLower id) ≠ strLower id →
      ∀ s : String, resolveProvider (register_provider reg id C) s ≠ some C) := by
  have hmain : ∀ s : String, resolveProvider (register_provider reg id C) s = some C ↔
      normalizeName s = strLower id := by
    intro s
    constructor
    · intro hsome
      by_contra hne
      rw [show resolveProvider (register_provider reg id C) s =
        registryLookup (register_provider reg id C) (normalizeName s) from rfl] at hsome
      rw [lookup_register_ne reg id (normalizeName s) C hne] at hsome
      unfold registryLookup at hsome
      obtain ⟨e, he, hev⟩ : ∃ e, reg.find? (fun x => x.1 == normalizeName s) = some e ∧
          e.2 = C := by
        cases hf : reg.find? (fun x => x.1 == normalizeName s) with
        | none => rw [hf] at hsome; simp at hsome
        | some e =>
          rw [hf] at hsome
          simp at hsome
          exact ⟨e, rfl, hsome⟩
      exact fresh e (List.mem_of_find?_eq_some he) hev
    · intro heq
      rw [show resolveProvider (register_provider reg id C) s =
        registryLookup (register_provider reg id C) (normalizeName s) from rfl, heq]
      exact lookup_register_self reg id C
  refine ⟨hmain, ?_⟩
  intro hws s hsome
  have heq := (hmain s).mp hsome
  have hidem : pyTrim (normalizeName s) = normalizeName s := pyTrim_idem (strLower s)
  rw [heq] at hidem
  exact hws hidem

/-- Witness for C10: an identifier registered with leading whitespace is not
retrievable through the normalized lookup. -/
theorem claim_C10_witness :
    resolveProvider (register_provider ([] : List (String × Nat)) " groq" 7) "groq" ≠
      some 7 :=
  (claim_C10_registry Nat [] " groq" 7 (by simp)).2 (by decide) "groq"
